import Mathlib

/-! # FreeHand-AntiGravity: verification of the specification against the source

Shallow embedding of the parts of the FreeHand-AntiGravity extension that the
claims refer to:

* `src/src/view/status-bar.ts` — `SafetyFilter` (`getBlocklist`, `isBlocked`);
* `src/src/core/input-guard.ts` — `AutoClicker` (`sendCDP`, `generateClickScript`
  and the in-page decision routine it builds);
* `src/src/quota/process-hunter.ts` — `ProcessHunter`
  (`parseListeningPorts`, `verifyConnection`, `isAntigravityProcess`,
  `parseProcessInfo`, posix branch);
* `src/src/shared/constants.ts` — the pattern constants.

JavaScript strings are modelled as Lean `String`s (all the patterns involved are
ASCII, so `Char.toLower` agrees with `String.prototype.toLowerCase`, and the
JS whitespace characters relevant here are the ASCII ones).  Machine integers
are modelled as `Nat`/`Int`; the quantities involved (ports, message ids) stay
far below any overflow boundary.
-/

namespace FreeHand

/-! ## JavaScript string primitives -/

/-- The ASCII whitespace characters recognised by JS `trim`, `\s` and `split(/\s+/)`. -/
def jsIsSpace (c : Char) : Bool :=
  c == ' ' || c == '\t' || c == '\n' || c == '\r' || c == '\x0b' || c == '\x0c'

/-- Models `String.prototype.toLowerCase` (ASCII). -/
def lowerStr (s : String) : String :=
  String.mk (s.toList.map Char.toLower)

/-- Does `p` start the list `s`?  (Helper for substring containment.) -/
def leadsWith : List Char → List Char → Bool
  | [], _ => true
  | _ :: _, [] => false
  | p :: ps, c :: cs => p == c && leadsWith ps cs

/-- Does `pat` occur as a contiguous sublist of `s`? -/
def hasSubList (pat : List Char) : List Char → Bool
  | [] => leadsWith pat []
  | c :: t => leadsWith pat (c :: t) || hasSubList pat t

/-- Models `s.includes(pat)` of JavaScript. -/
def jsIncludes (s pat : String) : Bool :=
  hasSubList pat.toList s.toList

/-- Models `String.prototype.trim` (strips JS whitespace from both ends). -/
def jsTrim (s : String) : String :=
  String.mk (((s.toList.dropWhile jsIsSpace).reverse.dropWhile jsIsSpace).reverse)

/-- Models `s.length` of JavaScript (code-unit count; the strings here are ASCII). -/
def strLen (s : String) : Nat := s.toList.length

/-- Models `s.startsWith(c)` for a single character. -/
def headIs (c : Char) (s : String) : Bool :=
  match s.toList with
  | [] => false
  | a :: _ => a == c

/-- Helper for `lastIndexOf`: last index of `c` in the list, counting from `i`. -/
def lastIdxOfAux (c : Char) : List Char → Nat → Option Nat
  | [], _ => none
  | a :: t, i =>
    match lastIdxOfAux c t (i + 1) with
    | some j => some j
    | none => if a == c then some i else none

/-- Models `s.lastIndexOf(c)` of JavaScript (`-1` when absent). -/
def jsLastIndexOf (s : String) (c : Char) : Int :=
  match lastIdxOfAux c s.toList 0 with
  | some i => Int.ofNat i
  | none => -1

/-! ## Constants (`src/src/shared/constants.ts`) -/

/-- Models `ACCEPT_PATTERNS` of `constants.ts`. -/
def ACCEPT_PATTERNS : List String :=
  ["accept", "accept all", "run", "run command", "apply", "execute",
   "retry", "try again", "resume", "confirm", "allow once", "allow"]

/-- Models `REJECT_PATTERNS` of `constants.ts`. -/
def REJECT_PATTERNS : List String :=
  ["skip", "reject", "cancel", "discard", "deny", "close", "refine", "other"]

/-- Models `DEFAULT_BLOCKLIST` of `constants.ts`. -/
def DEFAULT_BLOCKLIST : List String :=
  ["rm -rf /", "rm -rf ~", "rm -rf *", "format c:", "del /f /s /q",
   "rmdir /s /q", ":()\x7b:|:&\x7d;:", "dd if=", "mkfs.", "> /dev/sda",
   "chmod -R 777 /"]

/-! ## SafetyFilter (`src/src/view/status-bar.ts`, second `SafetyFilter` class)

Regular-expression compilation (`new RegExp(pattern, flags)`) is a property of
the JavaScript runtime, not of this repository, so it is kept abstract: a
`compile` parameter of type `String → String → Option (String → Bool)`, where
`none` models a compilation that throws (`catch` branch) and `some test`
models a compiled regex with its `test` method. -/

/-- Models `SafetyFilter.getBlocklist` (status-bar.ts lines 316-319):
`custom && custom.length > 0 ? custom : DEFAULT_BLOCKLIST`, where `custom` is
the configured `safety.blocklist` (`none` models an absent setting). -/
def getBlocklist (userList : Option (List String)) : List String :=
  match userList with
  | some l => if l.length > 0 then l else DEFAULT_BLOCKLIST
  | none => DEFAULT_BLOCKLIST

/-- Models `SafetyFilter.isBlocked` (status-bar.ts lines 324-357), looping over the
blocklist with the early `return true` modelled as recursion. -/
def isBlocked (compile : String → String → Option (String → Bool))
    (blocklist : List String) (command : String) : Bool :=
  match blocklist with
  | [] => false
  | pattern :: rest =>
    let lowerCommand := lowerStr command
    let lowerPattern := jsTrim (lowerStr pattern)
    if lowerPattern == "" then isBlocked compile rest command
    else if headIs '/' pattern && jsLastIndexOf pattern '/' > 0 then
      let lastSlash := (jsLastIndexOf pattern '/').toNat
      let regexPattern := String.mk ((pattern.toList.drop 1).take (lastSlash - 1))
      let flagsRaw := String.mk (pattern.toList.drop (lastSlash + 1))
      let flags := if flagsRaw == "" then "i" else flagsRaw
      match compile regexPattern flags with
      | some test => if test command then true else isBlocked compile rest command
      | none =>
        if jsIncludes lowerCommand lowerPattern then true
        else isBlocked compile rest command
    else
      if jsIncludes lowerCommand lowerPattern then true
      else isBlocked compile rest command

/-- The per-entry matching rule actually implemented by `isBlocked` (one loop
iteration's contribution). -/
def entryMatches (compile : String → String → Option (String → Bool))
    (pattern command : String) : Bool :=
  let lowerCommand := lowerStr command
  let lowerPattern := jsTrim (lowerStr pattern)
  if lowerPattern == "" then false
  else if headIs '/' pattern && jsLastIndexOf pattern '/' > 0 then
    let lastSlash := (jsLastIndexOf pattern '/').toNat
    let regexPattern := String.mk ((pattern.toList.drop 1).take (lastSlash - 1))
    let flagsRaw := String.mk (pattern.toList.drop (lastSlash + 1))
    let flags := if flagsRaw == "" then "i" else flagsRaw
    match compile regexPattern flags with
    | some test => test command
    | none => jsIncludes lowerCommand lowerPattern
  else jsIncludes lowerCommand lowerPattern

/-- The per-entry matching rule as the specification words it (refinement
comparison only — this definition follows the spec's sentence, not the source):
an undelimited entry matches as a case-insensitive substring of the command; a
delimited entry that fails to compile degrades to a case-insensitive literal
substring match on its **inner text** (the text between the delimiters). -/
def entryMatchesSpec (compile : String → String → Option (String → Bool))
    (pattern command : String) : Bool :=
  if headIs '/' pattern && jsLastIndexOf pattern '/' > 0 then
    let lastSlash := (jsLastIndexOf pattern '/').toNat
    let regexPattern := String.mk ((pattern.toList.drop 1).take (lastSlash - 1))
    let flagsRaw := String.mk (pattern.toList.drop (lastSlash + 1))
    let flags := if flagsRaw == "" then "i" else flagsRaw
    match compile regexPattern flags with
    | some test => test command
    | none => jsIncludes (lowerStr command) (lowerStr regexPattern)
  else jsIncludes (lowerStr command) (lowerStr pattern)

/-- Models `isBlocked` as the specification words it (refinement comparison only). -/
def isBlockedSpec (compile : String → String → Option (String → Bool))
    (blocklist : List String) (command : String) : Bool :=
  blocklist.any (fun p => entryMatchesSpec compile p command)

/-- A regex engine on which compilation fails.  It is only ever applied to the
pattern `"["`, for which JavaScript's `new RegExp("[", "i")` throws a
`SyntaxError` (unterminated character class), so `none` is its faithful value
there. -/
def failEngine : String → String → Option (String → Bool) :=
  fun _ _ => none

/-! ## The decision routine (`AutoClicker.generateClickScript`,
`src/src/core/input-guard.ts` lines 249-334)

The script evaluated in the remote page is modelled over an explicit page
model.  A `DomElement` records exactly the observations the generated script
makes of a DOM element: `closest…` fields model the `el.closest(sel) !== null`
queries, `preText` models `btn.closest('div')?.querySelector('pre, code')`
(`none` = no such preview region, `some t` = its `textContent`), `displayNone`,
`rectWidth`, `pointerEventsNone` and `disabled` model the visibility checks. -/

structure DomElement where
  /-- Models `el.tagName` (DOM spelling; the script lowercases it where it reads it). -/
  tagName : String
  /-- The `role` attribute, if present. -/
  role : Option String := none
  /-- The `class` attribute text. -/
  className : String := ""
  /-- Models `el.isContentEditable`. -/
  contentEditable : Bool := false
  /-- Models `el.closest('.monaco-editor') !== null`. -/
  closestMonaco : Bool := false
  /-- Models `el.closest('[class*="input"]') !== null`. -/
  closestClassInput : Bool := false
  /-- Models `el.closest('.ProseMirror') !== null`. -/
  closestProseMirror : Bool := false
  /-- Models `el.textContent` (`''` models a null `textContent`). -/
  textContent : String := ""
  /-- Models `getComputedStyle(el).display === 'none'`. -/
  displayNone : Bool := false
  /-- Models `el.getBoundingClientRect().width`. -/
  rectWidth : Nat := 0
  /-- Models `getComputedStyle(el).pointerEvents === 'none'`. -/
  pointerEventsNone : Bool := false
  /-- Models `el.disabled`. -/
  disabled : Bool := false
  /-- Models `btn.closest('div')?.querySelector('pre, code')?.textContent`. -/
  preText : Option String := none
deriving DecidableEq, Repr

/-- The document state the script observes: the focused element and the
elements of the page in document order. -/
structure PageModel where
  activeElement : Option DomElement
  elements : List DomElement
deriving DecidableEq, Repr

/-- The result object `{ clicked, skipped }` returned by the script. -/
structure PollResult where
  clicked : Nat
  skipped : Option String
deriving DecidableEq, Repr

/-- Models `isUserTyping()` of the generated script (input-guard.ts lines 261-273):
the focused element is an input/textarea, is content-editable, or sits inside
`.monaco-editor`, `[class*="input"]` or `.ProseMirror`. -/
def isUserTyping (page : PageModel) : Bool :=
  match page.activeElement with
  | none => false
  | some el =>
    let tag := lowerStr el.tagName
    tag == "input" || tag == "textarea" || el.contentEditable ||
      el.closestMonaco || el.closestClassInput || el.closestProseMirror

/-- Membership in `document.querySelectorAll('button, [role="button"],
[class*="button"]')` (input-guard.ts line 312): the selector list matches
`<button>` elements, elements with `role="button"`, and elements whose class
attribute contains `"button"` as a substring. -/
def selectorMatches (el : DomElement) : Bool :=
  lowerStr el.tagName == "button" || el.role == some "button" ||
    jsIncludes el.className "button"

/-- The node list the script iterates over. -/
def candidates (page : PageModel) : List DomElement :=
  page.elements.filter selectorMatches

/-- Models `(el.textContent || '').trim().toLowerCase()` — the normalized text used
by `isAcceptButton`. -/
def normText (el : DomElement) : String :=
  lowerStr (jsTrim el.textContent)

/-- Models `isCommandBlocked(text)` of the generated script (input-guard.ts lines
280-288): some blocklist entry, lowercased, is a substring of the lowercased
text. -/
def isCommandBlocked (text : String) (blocklist : List String) : Bool :=
  blocklist.any (fun p => jsIncludes (lowerStr text) (lowerStr p))

/-- Models `isAcceptButton(el)` of the generated script (input-guard.ts lines
291-308): length gate, reject patterns, accept patterns, then visibility and
interactivity. -/
def isAcceptButton (el : DomElement) : Bool :=
  let text := normText el
  if strLen text == 0 || strLen text > 50 then false
  else if REJECT_PATTERNS.any (fun p => jsIncludes text p) then false
  else if !(ACCEPT_PATTERNS.any (fun p => jsIncludes text p)) then false
  else if el.displayNone || el.rectWidth == 0 then false
  else if el.pointerEventsNone || el.disabled then false
  else true

/-- The safety gate in the click loop (input-guard.ts lines 317-324): when the
button text contains run/execute wording and an adjacent `pre`/`code` region
exists whose text is blocked, the loop `continue`s past the button. -/
def runGateBlocks (el : DomElement) (blocklist : List String) : Bool :=
  let text := jsTrim el.textContent
  if jsIncludes (lowerStr text) "run" || jsIncludes (lowerStr text) "execute" then
    match el.preText with
    | some pre => isCommandBlocked pre blocklist
    | none => false
  else false

/-- The elements the click loop actually clicks in one cycle. -/
def clickedElements (page : PageModel) (blocklist : List String) : List DomElement :=
  if isUserTyping page then []
  else (candidates page).filter
    (fun el => isAcceptButton el && !runGateBlocks el blocklist)

/-- The whole decision routine: early return on the typing guard, otherwise
the click loop's count with `skipped: null`. -/
def runDecisionRoutine (page : PageModel) (blocklist : List String) : PollResult :=
  if isUserTyping page then { clicked := 0, skipped := some "user typing" }
  else { clicked := (clickedElements page blocklist).length, skipped := none }

/-- The `BLOCKLIST` value interpolated into the script by
`generateClickScript` (input-guard.ts line 252):
`this.config.get<string[]>('safety.blocklist') ?? []` — the raw configured
list, with `[]` as the fallback (`none` models an absent setting).  Note that
this does **not** go through `SafetyFilter.getBlocklist`. -/
def scriptBlocklist (userList : Option (List String)) : List String :=
  userList.getD []

/-! ## The control channel (`AutoClicker.sendCDP`,
`src/src/core/input-guard.ts` lines 104 and 178-201)

`sendCDP` throws when the socket is not open; otherwise it issues
`id = ++this.messageId`, sends `{id, method, params}` and registers a
`message` handler that settles the returned promise only on a response whose
`id` matches (resolving on `result`, rejecting on `error`); a non-matching
message is ignored by that handler.  `sendCDP` registers **no timer**, so the
passage of time changes nothing; `disconnect()` (lines 171-176) closes the
socket without settling any pending promise.  This is modelled as a state
machine over the observable events of one channel. -/

/-- The settlement state of one `sendCDP` promise. -/
inductive CallStatus where
  | pending
  | resolved
  | rejected
deriving DecidableEq, Repr

/-- Channel state: `messageId` is the counter of input-guard.ts line 104
(initially `0`); `calls` lists every issued call with its status, in issue
order; `wsOpen` is `ws.readyState === WebSocket.OPEN`. -/
structure ChannelState where
  messageId : Nat
  calls : List (Nat × CallStatus)
  wsOpen : Bool
deriving DecidableEq, Repr

/-- Observable events of one channel's lifetime. -/
inductive ChEvent where
  /-- Models `sendCDP(method, params)` is invoked. -/
  | send
  /-- An inbound message `{id, result}` arrives. -/
  | recvResult (id : Nat)
  /-- An inbound message `{id, error}` arrives. -/
  | recvError (id : Nat)
  /-- Models `ms` milliseconds of wall-clock time pass with no message. -/
  | elapse (ms : Nat)
  /-- Models `disconnect()` closes the socket. -/
  | close
deriving DecidableEq, Repr

/-- Delivering a response with id `i` to the registered handlers: only the
pending call with that id settles; every other handler ignores the message. -/
def settleCall (i : Nat) (st : CallStatus) :
    List (Nat × CallStatus) → List (Nat × CallStatus) :=
  List.map (fun c => if c.1 == i && c.2 == CallStatus.pending then (c.1, st) else c)

/-- One step of the channel.  `send` on a closed socket throws before an id is
taken (`sendCDP` line 179), so it issues nothing; `elapse` is the identity
because `sendCDP` registers no timer; `close` only flips the socket state —
the code settles no pending promise on close. -/
def step (s : ChannelState) (e : ChEvent) : ChannelState :=
  match e with
  | .send =>
    if s.wsOpen then
      { s with messageId := s.messageId + 1,
               calls := s.calls ++ [(s.messageId + 1, CallStatus.pending)] }
    else s
  | .recvResult i => { s with calls := settleCall i CallStatus.resolved s.calls }
  | .recvError i => { s with calls := settleCall i CallStatus.rejected s.calls }
  | .elapse _ => s
  | .close => { s with wsOpen := false }

/-- The state right after `connect` succeeds. -/
def initChannel : ChannelState := { messageId := 0, calls := [], wsOpen := true }

/-- Run a sequence of events from the initial state. -/
def runChannel (events : List ChEvent) : ChannelState :=
  events.foldl step initChannel

/-- The request ids attached to the issued envelopes, in issue order. -/
def issuedIds (s : ChannelState) : List Nat :=
  s.calls.map Prod.fst

/-- The status of the call with id `i`, if such a call was issued. -/
def statusOf (s : ChannelState) (i : Nat) : Option CallStatus :=
  (s.calls.find? (fun c => c.1 == i)).map Prod.snd

/-! ## ProcessHunter (`src/src/quota/process-hunter.ts`)

The port extraction uses `stdout.match(/\b\d{1,5}\b/g)`; the digit-run
matcher below reproduces the JS global-match semantics for that pattern
(leftmost scan, greedy `\d{1,5}` with backtracking, word boundaries). -/

/-- JS `\w` (`[A-Za-z0-9_]`). -/
def isWordChar (c : Char) : Bool :=
  c.isAlpha || c.isDigit || c == '_'

/-- Up to `n` leading digits of `s` (stops at the first non-digit). -/
def takeDigits : Nat → List Char → List Char
  | 0, _ => []
  | _, [] => []
  | n + 1, c :: t => if c.isDigit then c :: takeDigits n t else []

/-- The boundary `\b` holds after the match iff the rest is empty or starts with a
non-word character. -/
def boundaryAfter : List Char → Bool
  | [] => true
  | c :: _ => !isWordChar c

/-- Backtracking for `\d{1,5}\b` at the current position: try `k` digits for
`k = hi, hi-1, …, 1` and keep the first length whose trailing boundary holds. -/
def tryK : Nat → List Char → Option (List Char)
  | 0, _ => none
  | k + 1, s =>
    let ds := takeDigits (k + 1) s
    if ds.length == k + 1 && boundaryAfter (s.drop (k + 1)) then some ds
    else tryK k s

/-- Attempt `\b\d{1,5}\b` at the current position; `prev` is the character
before the position (`none` at the start of the string). -/
def matchDigits (prev : Option Char) (s : List Char) : Option (List Char) :=
  let bBefore := match prev with
    | none => true
    | some c => !isWordChar c
  if bBefore then tryK 5 s else none

/-- Global scan of `/\b\d{1,5}\b/g`: try each position left to right; on a
match, continue after it.  Fuel is the remaining string length (each step
consumes at least one character, so it never runs out). -/
def scanDigitRuns : Nat → Option Char → List Char → List (List Char)
  | 0, _, _ => []
  | _, _, [] => []
  | fuel + 1, prev, c :: t =>
    match matchDigits prev (c :: t) with
    | some m => m :: scanDigitRuns fuel m.getLast? ((c :: t).drop m.length)
    | none => scanDigitRuns fuel (some c) t

/-- Models `stdout.match(/\b\d{1,5}\b/g) || []` as a list of digit tokens. -/
def jsDigitTokens (stdout : String) : List (List Char) :=
  scanDigitRuns stdout.toList.length none stdout.toList

/-- Models `parseInt(value, 10)` on an all-digit token. -/
def natOfDigits (l : List Char) : Nat :=
  l.foldl (fun acc c => acc * 10 + (c.toNat - '0'.toNat)) 0

/-- Insertion into a strictly ascending duplicate-free list.  `Set.add`
followed by `Array.from(ports).sort((a, b) => a - b)` produces exactly the
sorted duplicate-free list of the collected values, which this insertion
builds online. -/
def insertSortedNoDup (x : Nat) : List Nat → List Nat
  | [] => [x]
  | y :: ys =>
    if x < y then x :: y :: ys
    else if x == y then y :: ys
    else y :: insertSortedNoDup x ys

/-- Models `ProcessHunter.parseListeningPorts` (process-hunter.ts lines 194-206):
collect the matched numbers in `(1024, 65535]` into a set and return them
sorted ascending. -/
def parseListeningPorts (stdout : String) : List Nat :=
  (jsDigitTokens stdout).foldl
    (fun acc tok =>
      let port := natOfDigits tok
      if 1024 < port && port ≤ 65535 then insertSortedNoDup port acc else acc)
    []

/-- Models `ProcessHunter.verifyConnection` (process-hunter.ts lines 208-215): probe
each port in order, return the first that verifies.  `ping` abstracts
`pingPort` (an HTTP probe of the local machine). -/
def verifyConnection (ports : List Nat) (ping : Nat → Bool) : Option Nat :=
  match ports with
  | [] => none
  | p :: rest => if ping p then some p else verifyConnection rest ping

/-- The ports `verifyConnection` actually probes: every port up to and
including the first that verifies. -/
def probedPorts (ports : List Nat) (ping : Nat → Bool) : List Nat :=
  match ports with
  | [] => []
  | p :: rest => if ping p then [p] else p :: probedPorts rest ping

/-! ### Process-listing parsing, posix branch
(`ProcessHunter.parseProcessInfo`, process-hunter.ts lines 139-162, and
`isAntigravityProcess`, lines 167-171).  The win32 branch applies the very
same `isAntigravityProcess` gate (line 122). -/

/-- Strip a (lowercase) pattern from the front of `s`, comparing
case-insensitively — the `i`-flagged literal part of a regex. -/
def stripCI : List Char → List Char → Option (List Char)
  | [], s => some s
  | _ :: _, [] => none
  | p :: ps, c :: cs => if c.toLower == p then stripCI ps cs else none

/-- Strip a pattern from the front of `s`, comparing exactly — the literal
part of an unflagged regex. -/
def stripLit : List Char → List Char → Option (List Char)
  | [], s => some s
  | _ :: _, [] => none
  | p :: ps, c :: cs => if c == p then stripLit ps cs else none

/-- The regex `--app_data_dir\s+antigravity\b` (flag `i`) attempted at the current position.
`\s+` is greedy; since `antigravity` starts with a non-space character,
greedy whitespace consumption is exact. -/
def markerAt (s : List Char) : Bool :=
  match stripCI "--app_data_dir".toList s with
  | none => false
  | some r1 =>
    if (r1.takeWhile jsIsSpace).length == 0 then false
    else
      match stripCI "antigravity".toList (r1.dropWhile jsIsSpace) with
      | none => false
      | some r3 => boundaryAfter r3

/-- Models `.test` of the marker regex (`--app_data_dir\s+antigravity\b`, flag `i`): some position matches. -/
def markerScan : List Char → Bool
  | [] => markerAt []
  | c :: t => markerAt (c :: t) || markerScan t

/-- Models `ProcessHunter.isAntigravityProcess` (process-hunter.ts lines 167-171). -/
def isAntigravityProcess (cmdLine : String) : Bool :=
  jsIncludes cmdLine "--extension_server_port" &&
    jsIncludes cmdLine "--csrf_token" &&
    markerScan cmdLine.toList

/-- The character class `[=\s]`. -/
def eqWsClass (c : Char) : Bool := c == '=' || jsIsSpace c

/-- The character class `[a-zA-Z0-9-]`. -/
def tokenClassChar (c : Char) : Bool := c.isAlpha || c.isDigit || c == '-'

/-- The regex `--extension_server_port[=\s]+(\d+)` (no flags) attempted at the current position,
returning the captured digits.  The classes `[=\s]` and `\d` are disjoint, so
greedy separator consumption is exact. -/
def portMatchAt (s : List Char) : Option (List Char) :=
  match stripLit "--extension_server_port".toList s with
  | none => none
  | some r1 =>
    if (r1.takeWhile eqWsClass).length == 0 then none
    else
      let r2 := r1.dropWhile eqWsClass
      let ds := r2.takeWhile Char.isDigit
      if ds.length == 0 then none else some ds

/-- Leftmost match of the port regex. -/
def portScan : List Char → Option (List Char)
  | [] => portMatchAt []
  | c :: t =>
    match portMatchAt (c :: t) with
    | some d => some d
    | none => portScan t

/-- The regex `--csrf_token[=\s]+([a-zA-Z0-9-]+)` (flag `i`) attempted at the current position,
returning the captured token text. -/
def tokenMatchAt (s : List Char) : Option (List Char) :=
  match stripCI "--csrf_token".toList s with
  | none => none
  | some r1 =>
    if (r1.takeWhile eqWsClass).length == 0 then none
    else
      let r2 := r1.dropWhile eqWsClass
      let ds := r2.takeWhile tokenClassChar
      if ds.length == 0 then none else some ds

/-- Leftmost match of the token regex. -/
def tokenScan : List Char → Option (List Char)
  | [] => tokenMatchAt []
  | c :: t =>
    match tokenMatchAt (c :: t) with
    | some d => some d
    | none => tokenScan t

/-- Models `line.trim().split(/\s+/)` on a line with no leading whitespace left:
split into maximal whitespace-free tokens.  Fuel is the string length; each
step consumes at least one character. -/
def splitWsAux : Nat → List Char → List (List Char)
  | 0, _ => []
  | fuel + 1, s =>
    match s.dropWhile jsIsSpace with
    | [] => []
    | c :: t =>
      (c :: t.takeWhile (fun a => !jsIsSpace a)) ::
        splitWsAux fuel (t.dropWhile (fun a => !jsIsSpace a))

/-- Tokens of a line, as used for `parts`. -/
def splitWsTokens (s : List Char) : List (List Char) :=
  splitWsAux s.length s

/-- Models `parts.slice(2).join(' ')`. -/
def joinSpace : List (List Char) → List Char
  | [] => []
  | [t] => t
  | t :: rest => t ++ ' ' :: joinSpace rest

/-- Models `parseInt(s, 10)`: optional sign, then leading digits; `none` models
`NaN`. -/
def jsParseIntOpt (s : List Char) : Option Int :=
  let signed : Int × List Char :=
    match s with
    | '-' :: t => (-1, t)
    | '+' :: t => (1, t)
    | t => (1, t)
  let ds := signed.2.takeWhile Char.isDigit
  if ds.length == 0 then none else some (signed.1 * Int.ofNat (natOfDigits ds))

/-- Models `ProcessInfo` of `src/src/quota/types` (the fields the posix parser
fills). -/
structure ProcessInfo where
  pid : Int
  extensionPort : Nat
  csrfToken : String
deriving DecidableEq, Repr

/-- Models `parts` of one `ps` output line: `line.trim().split(/\\s+/)`. -/
def partsOfLine (line : String) : List (List Char) :=
  splitWsTokens (jsTrim line).toList

/-- The command-line part of a `ps` output line: `parts.slice(2).join(' ')`. -/
def cmdOfLine (line : String) : String :=
  String.mk (joinSpace ((partsOfLine line).drop 2))

/-- One iteration of the posix parsing loop (process-hunter.ts lines
142-161): `none` models `continue` / no push. -/
def parseLinePosix (line : String) : Option ProcessInfo :=
  if (partsOfLine line).length < 3 then none
  else
    match jsParseIntOpt ((partsOfLine line).headD []) with
    | none => none
    | some pid =>
      if !isAntigravityProcess (cmdOfLine line) then none
      else
        match tokenScan (cmdOfLine line).toList with
        | none => none
        | some tok =>
          some { pid := pid,
                 extensionPort :=
                   match portScan (cmdOfLine line).toList with
                   | some ds => natOfDigits ds
                   | none => 0,
                 csrfToken := String.mk tok }

/-- Models `stdout.split('\n').filter(l => l.trim())`. -/
def linesOf (stdout : String) : List String :=
  (stdout.split (fun c => c == '\n')).filter (fun l => !(jsTrim l == ""))

/-- Models `ProcessHunter.parseProcessInfo`, posix branch (process-hunter.ts lines
139-162): the candidate list from the `ps` output. -/
def parseProcessInfoPosix (stdout : String) : List ProcessInfo :=
  (linesOf stdout).filterMap parseLinePosix

/-! ## Concrete inputs used by the scenario theorems and witnesses -/

/-- A visible, enabled "Run command" button whose enclosing `div` holds a
command preview reading `rm -rf /`. -/
def c1RunButton : DomElement :=
  { tagName := "button", textContent := "Run command", rectWidth := 20,
    preText := some "rm -rf /" }

/-- An unrelated visible, enabled "accept" button with no command preview. -/
def c1OtherButton : DomElement :=
  { tagName := "button", textContent := "accept", rectWidth := 20 }

/-- The page of the C1 scenario: nothing focused, the two buttons above. -/
def c1Page : PageModel :=
  { activeElement := none, elements := [c1RunButton, c1OtherButton] }

/-- A visible, enabled button reading "Skip and Run" — both a reject
substring (`skip`) and an accept substring (`run`). -/
def c3SkipRunButton : DomElement :=
  { tagName := "button", textContent := "Skip and Run", rectWidth := 10 }

/-- A page holding only the "Skip and Run" button. -/
def c3Page : PageModel :=
  { activeElement := none, elements := [c3SkipRunButton] }

/-- A focused text-input element (DOM reports tag names in upper case). -/
def c5InputEl : DomElement := { tagName := "INPUT" }

/-- A visible, enabled "accept" button present while the input is focused. -/
def c5AcceptButton : DomElement :=
  { tagName := "button", textContent := "accept", rectWidth := 12 }

/-- A `div` that is neither a `<button>` nor `role="button"`, but whose class
attribute contains `button`; visible, enabled, reading "accept". -/
def c6DivButton : DomElement :=
  { tagName := "div", className := "my-button panel", textContent := "accept",
    rectWidth := 15 }

/-- A page holding only that `div`. -/
def c6Page : PageModel := { activeElement := none, elements := [c6DivButton] }

/-- One call is issued, then an hour passes with no inbound message. -/
def c2Trace : List ChEvent := [ChEvent.send, ChEvent.elapse 3600000]

/-- Events after the first call of the C2 witness: time passes, a second call
is issued, and only the second call is answered. -/
def c2WitnessTrace : List ChEvent :=
  [ChEvent.elapse 60000, ChEvent.send, ChEvent.recvResult 2]

/-- A `ps` line whose command carries the marker argument and a token flag
but no `--extension_server_port` flag. -/
def c8Line : String :=
  "1234 1 /usr/bin/language_server_linux --app_data_dir antigravity --csrf_token abc-123"

/-! # Theorems -/

/-! ## SafetyFilter bridging lemmas -/

theorem isBlocked_cons (compile : String → String → Option (String → Bool))
    (p : String) (rest : List String) (command : String) :
    isBlocked compile (p :: rest) command
      = (entryMatches compile p command || isBlocked compile rest command) := by
  simp only [isBlocked, entryMatches]
  split
  · simp
  · split
    · split <;> split <;> simp_all
    · split <;> simp_all

theorem isBlocked_eq_any (compile : String → String → Option (String → Bool))
    (blocklist : List String) (command : String) :
    isBlocked compile blocklist command
      = blocklist.any (fun p => entryMatches compile p command) := by
  induction blocklist with
  | nil => rfl
  | cons p rest ih => rw [isBlocked_cons, List.any_cons, ih]

/-! ## C1 -/

/-- C1 (code bug): with an empty configured user blocklist, the decision
routine built by `generateClickScript` does **not** use the default
blocklist — the script's `BLOCKLIST` is `config.get('safety.blocklist') ?? []`
(here `[]`), not `SafetyFilter.getBlocklist` (`DEFAULT_BLOCKLIST`).  On the
C1 page the routine therefore clicks both buttons, including "Run command"
next to a preview of `rm -rf /`; had the routine been parameterized by
`getBlocklist` — as the spec describes and as the `SafetyFilter` instance
constructed (and never consulted) by `AutoClicker` provides — that button
would be skipped and only the unrelated button clicked. -/
theorem c1_script_blocklist_bypasses_safety_filter :
    runDecisionRoutine c1Page (scriptBlocklist (some []))
        = { clicked := 2, skipped := none }
    ∧ c1RunButton ∈ clickedElements c1Page (scriptBlocklist (some []))
    ∧ runDecisionRoutine c1Page (getBlocklist (some []))
        = { clicked := 1, skipped := none }
    ∧ c1RunButton ∉ clickedElements c1Page (getBlocklist (some []))
    ∧ c1OtherButton ∈ clickedElements c1Page (getBlocklist (some [])) := by
  decide

/-! ## C3 -/

theorem isAcceptButton_eq_false_of_reject (el : DomElement) (p : String)
    (hp : p ∈ REJECT_PATTERNS) (hinc : jsIncludes (normText el) p = true) :
    isAcceptButton el = false := by
  have hB : REJECT_PATTERNS.any (fun q => jsIncludes (normText el) q) = true :=
    List.any_eq_true.mpr ⟨p, hp, hinc⟩
  unfold isAcceptButton
  simp [hB]

/-- C3: an element whose normalized text contains a reject pattern as a
substring is never clicked, whatever else its text contains — the reject
check precedes (and so always wins over) the accept check in
`isAcceptButton`. -/
theorem c3_reject_patterns_always_win (page : PageModel)
    (blocklist : List String) (el : DomElement) (p : String)
    (hp : p ∈ REJECT_PATTERNS) (hinc : jsIncludes (normText el) p = true) :
    el ∉ clickedElements page blocklist := by
  intro hmem
  unfold clickedElements at hmem
  split at hmem
  · exact absurd hmem (List.not_mem_nil el)
  · have hacc : (isAcceptButton el && !runGateBlocks el blocklist) = true :=
      (List.mem_filter.mp hmem).2
    rw [Bool.and_eq_true] at hacc
    have : isAcceptButton el = true := hacc.1
    rw [isAcceptButton_eq_false_of_reject el p hp hinc] at this
    exact Bool.false_ne_true this

/-- C3 witness: the "Skip and Run" button (text containing both the reject
substring `skip` and the accept substring `run`) is not clicked. -/
theorem c3_witness : c3SkipRunButton ∉ clickedElements c3Page [] :=
  c3_reject_patterns_always_win c3Page [] c3SkipRunButton "skip"
    (by decide) (by decide)

/-! ## C4 -/

/-- C4 counterexample: the entry `/[/` is delimited and its inner text `[`
fails to compile (JS throws on `new RegExp("[", "i")`).  The claim's fallback
rule — match the **inner text** `[` case-insensitively — would block the
command `a[b`; the code's fallback matches the **whole entry text** `/[/`
instead, so `isBlocked` is `false`. -/
theorem c4_counterexample :
    isBlocked failEngine ["/[/"] "a[b" = false
    ∧ isBlockedSpec failEngine ["/[/"] "a[b" = true := by
  decide

/-- C4 (amended): `isBlocked` is true iff some entry matches under the rules
the code implements: entries whose lowercased text trims to empty are
skipped; a delimited `/pattern/flags` entry that compiles is tested against
the raw command (flags defaulting to `i`); a delimited entry that fails to
compile — and any undelimited entry — matches when the entry's **full**
lowercased trimmed text is a substring of the lowercased command (not the
inner text between the delimiters).  The scenario holds: blocklist
`["rm -rf"]` blocks `"RM -RF /tmp"`. -/
theorem c4_isBlocked_iff (compile : String → String → Option (String → Bool))
    (blocklist : List String) (command : String) :
    (isBlocked compile blocklist command = true ↔
      ∃ p ∈ blocklist, entryMatches compile p command = true)
    ∧ isBlocked compile ["rm -rf"] "RM -RF /tmp" = true := by
  constructor
  · rw [isBlocked_eq_any, List.any_eq_true]
  · rw [isBlocked_cons]
    have : entryMatches compile "rm -rf" "RM -RF /tmp" = true := rfl
    rw [this, Bool.true_or]

/-! ## C5 -/

/-- C5: when the focused element is an input/textarea, content-editable, or
inside a Monaco editor, a `[class*="input"]` widget or a ProseMirror editor,
the routine returns `{clicked: 0, skipped: 'user typing'}` and clicks
nothing, whatever elements the page holds. -/
theorem c5_typing_guard (els : List DomElement) (blocklist : List String)
    (el : DomElement)
    (h : lowerStr el.tagName = "input" ∨ lowerStr el.tagName = "textarea" ∨
         el.contentEditable = true ∨ el.closestMonaco = true ∨
         el.closestClassInput = true ∨ el.closestProseMirror = true) :
    runDecisionRoutine ⟨some el, els⟩ blocklist
        = { clicked := 0, skipped := some "user typing" }
    ∧ clickedElements ⟨some el, els⟩ blocklist = [] := by
  have ht : isUserTyping ⟨some el, els⟩ = true := by
    unfold isUserTyping
    rcases h with h | h | h | h | h | h <;> simp [h]
  constructor
  · unfold runDecisionRoutine
    rw [ht]
    rfl
  · unfold clickedElements
    rw [ht]
    rfl

/-- C5 witness: with the focus on a text input and a visible accept button on
the page, the routine still returns the typing skip and clicks nothing. -/
theorem c5_witness :
    isAcceptButton c5AcceptButton = true
    ∧ runDecisionRoutine ⟨some c5InputEl, [c5AcceptButton]⟩ []
        = { clicked := 0, skipped := some "user typing" }
    ∧ clickedElements ⟨some c5InputEl, [c5AcceptButton]⟩ [] = [] :=
  ⟨by decide,
   c5_typing_guard [c5AcceptButton] [] c5InputEl (Or.inl (by decide))⟩

/-! ## C6 -/

/-- C6 counterexample: a `div` that is neither a `<button>` element nor
carries `role="button"`, but whose class attribute contains `button`, is
enumerated by `querySelectorAll('button, [role="button"],
[class*="button"]')` and is clicked. -/
theorem c6_counterexample :
    (lowerStr c6DivButton.tagName = "button" → False)
    ∧ c6DivButton.role ≠ some "button"
    ∧ c6DivButton ∈ candidates c6Page
    ∧ c6DivButton ∈ clickedElements c6Page []
    ∧ runDecisionRoutine c6Page [] = { clicked := 1, skipped := none } := by
  decide

/-- C6 (amended): the decision routine enumerates as click candidates exactly
the elements that are `<button>` elements, carry `role="button"`, or whose
class attribute contains `button` as a substring. -/
theorem c6_candidates_characterization (page : PageModel) (el : DomElement) :
    el ∈ candidates page ↔
      el ∈ page.elements ∧
        (lowerStr el.tagName = "button" ∨ el.role = some "button" ∨
          jsIncludes el.className "button" = true) := by
  simp [candidates, selectorMatches, List.mem_filter, or_assoc]

/-! ## C10 -/

/-- C10: a blocklist entry that is empty or whitespace-only is skipped by
`isBlocked` before any matching is attempted (`if (!lowerPattern) continue`),
so removing all such entries never changes the verdict — in particular such
an entry never causes any command to be reported blocked, neither as the
empty-substring literal nor as a regex. -/
theorem c10_blank_entries_never_match
    (compile : String → String → Option (String → Bool))
    (blocklist : List String) (command : String) :
    isBlocked compile
        (blocklist.filter (fun e => !(jsTrim (lowerStr e) == ""))) command
      = isBlocked compile blocklist command := by
  induction blocklist with
  | nil => rfl
  | cons p rest ih =>
    by_cases h : jsTrim (lowerStr p) == ""
    · have hm : entryMatches compile p command = false := by
        unfold entryMatches
        simp [h]
      rw [List.filter_cons, if_neg (by simp [h]), ih, isBlocked_cons, hm,
        Bool.false_or]
    · rw [List.filter_cons, if_pos (by simp [h]), isBlocked_cons, ih,
        isBlocked_cons]

/-! ## C2 -/

/-- C2 counterexample: one call is issued (id 1) and an hour passes with no
inbound message.  `sendCDP` takes no timeout argument and registers no timer,
so the call's promise is still pending — it is not rejected within any
per-call timeout.  (The socket is also still open, as the claim's last part
says.) -/
theorem c2_counterexample :
    statusOf (runChannel c2Trace) 1 = some CallStatus.pending
    ∧ (runChannel c2Trace).wsOpen = true := by
  decide

/-- The invariant behind C2: the first call is still pending, at least one id
has been taken, and the socket is open. -/
def c2Inv (s : ChannelState) : Prop :=
  (∃ rest, s.calls = (1, CallStatus.pending) :: rest)
    ∧ 1 ≤ s.messageId ∧ s.wsOpen = true

theorem c2Inv_step (s : ChannelState) (e : ChEvent) (hs : c2Inv s)
    (he : e ≠ ChEvent.recvResult 1 ∧ e ≠ ChEvent.recvError 1 ∧
      e ≠ ChEvent.close) :
    c2Inv (step s e) := by
  obtain ⟨⟨rest, hcalls⟩, hmid, hopen⟩ := hs
  cases e with
  | send =>
    refine ⟨⟨rest ++ [(s.messageId + 1, CallStatus.pending)], ?_⟩, ?_, ?_⟩
    · simp [step, hopen, hcalls]
    · simp [step, hopen]
    · simp [step, hopen]
  | recvResult i =>
    have hi : i ≠ 1 := fun h => he.1 (by rw [h])
    refine ⟨⟨settleCall i CallStatus.resolved rest, ?_⟩, hmid, hopen⟩
    simp only [step, hcalls, settleCall, List.map_cons]
    rw [if_neg (by simp [Ne.symm hi])]
  | recvError i =>
    have hi : i ≠ 1 := fun h => he.2.1 (by rw [h])
    refine ⟨⟨settleCall i CallStatus.rejected rest, ?_⟩, hmid, hopen⟩
    simp only [step, hcalls, settleCall, List.map_cons]
    rw [if_neg (by simp [Ne.symm hi])]
  | elapse ms => exact ⟨⟨rest, hcalls⟩, hmid, hopen⟩
  | close => exact absurd rfl he.2.2

theorem c2Inv_run (events : List ChEvent) (s : ChannelState) (hs : c2Inv s)
    (he : ∀ e ∈ events, e ≠ ChEvent.recvResult 1 ∧ e ≠ ChEvent.recvError 1 ∧
      e ≠ ChEvent.close) :
    c2Inv (events.foldl step s) := by
  induction events generalizing s with
  | nil => exact hs
  | cons e rest ih =>
    exact ih (step s e)
      (c2Inv_step s e hs (he e (List.mem_cons_self e rest)))
      (fun x hx => he x (List.mem_cons_of_mem e hx))

/-- C2 (amended): a call carries **no** timeout of its own — `sendCDP(method,
params)` takes none and sets no timer.  A call is settled only by an inbound
response with its id: after `send` issues call 1, any sequence of events that
contains no response with id 1 (and no `disconnect`) leaves the call pending —
however much time elapses — and leaves the channel open. -/
theorem c2_calls_have_no_timeout (events : List ChEvent)
    (hresp : ∀ e ∈ events, e ≠ ChEvent.recvResult 1 ∧
      e ≠ ChEvent.recvError 1)
    (hclose : ∀ e ∈ events, e ≠ ChEvent.close) :
    statusOf (runChannel (ChEvent.send :: events)) 1 = some CallStatus.pending
    ∧ (runChannel (ChEvent.send :: events)).wsOpen = true := by
  have h0 : c2Inv (step initChannel ChEvent.send) := by
    refine ⟨⟨[], ?_⟩, ?_, ?_⟩ <;> simp [step, initChannel]
  have hfin : c2Inv (events.foldl step (step initChannel ChEvent.send)) :=
    c2Inv_run events _ h0
      (fun e he => ⟨(hresp e he).1, (hresp e he).2, hclose e he⟩)
  obtain ⟨⟨rest, hcalls⟩, _, hopen⟩ := hfin
  have hrun : runChannel (ChEvent.send :: events)
      = events.foldl step (step initChannel ChEvent.send) := rfl
  refine ⟨?_, by rw [hrun]; exact hopen⟩
  rw [hrun]
  unfold statusOf
  rw [hcalls]
  simp [List.find?]

/-- C2 witness for the amended statement: a minute passes, a second call is
issued and answered; call 1 is still pending and the channel open. -/
theorem c2_witness :
    statusOf (runChannel (ChEvent.send :: c2WitnessTrace)) 1
        = some CallStatus.pending
    ∧ (runChannel (ChEvent.send :: c2WitnessTrace)).wsOpen = true :=
  c2_calls_have_no_timeout c2WitnessTrace (by decide) (by decide)

/-! ## C9 -/

theorem settleCall_map_fst (i : Nat) (st : CallStatus)
    (l : List (Nat × CallStatus)) :
    (settleCall i st l).map Prod.fst = l.map Prod.fst := by
  unfold settleCall
  rw [List.map_map]
  congr 1
  funext c
  simp only [Function.comp_apply]
  by_cases h : (c.1 == i && c.2 == CallStatus.pending) = true
  · rw [if_pos h]
  · rw [if_neg h]

/-- The invariant behind C9: issued ids are strictly increasing and bounded
by the current counter, and every id is positive. -/
def c9Inv (s : ChannelState) : Prop :=
  List.Chain' (· < ·) (issuedIds s)
    ∧ ∀ i ∈ issuedIds s, 0 < i ∧ i ≤ s.messageId

theorem c9Inv_step (s : ChannelState) (e : ChEvent) (hs : c9Inv s) :
    c9Inv (step s e) := by
  obtain ⟨hchain, hbound⟩ := hs
  cases e with
  | send =>
    cases hopen : s.wsOpen with
    | false =>
      constructor
      · simpa [step, hopen] using hchain
      · simpa [step, hopen] using hbound
    | true =>
      have hids : issuedIds (step s ChEvent.send)
          = issuedIds s ++ [s.messageId + 1] := by
        simp [step, hopen, issuedIds]
      have hmid : (step s ChEvent.send).messageId = s.messageId + 1 := by
        simp [step, hopen]
      constructor
      · rw [hids]
        refine List.Chain'.append hchain (List.chain'_singleton _) ?_
        intro x hx y hy
        obtain ⟨hne, hxe⟩ := List.mem_getLast?_eq_getLast hx
        have hxm : x ∈ issuedIds s := by
          rw [hxe]
          exact List.getLast_mem hne
        have hy1 : s.messageId + 1 = y := by simpa using hy
        have hxb := (hbound x hxm).2
        omega
      · intro i hi
        rw [hids] at hi
        rw [hmid]
        rcases List.mem_append.mp hi with hi | hi
        · have hb := hbound i hi
          omega
        · have hieq : i = s.messageId + 1 := by simpa using hi
          omega
  | recvResult i =>
    constructor
    · simpa [issuedIds, step, settleCall_map_fst] using hchain
    · simpa [issuedIds, step, settleCall_map_fst] using hbound
  | recvError i =>
    constructor
    · simpa [issuedIds, step, settleCall_map_fst] using hchain
    · simpa [issuedIds, step, settleCall_map_fst] using hbound
  | elapse ms => exact ⟨hchain, hbound⟩
  | close =>
    constructor
    · simpa [issuedIds, step] using hchain
    · simpa [issuedIds, step] using hbound

theorem c9Inv_run (events : List ChEvent) (s : ChannelState) (hs : c9Inv s) :
    c9Inv (events.foldl step s) := by
  induction events generalizing s with
  | nil => exact hs
  | cons e rest ih => exact ih (step s e) (c9Inv_step s e hs)

/-- C9: over any sequence of events on one channel, the request ids attached
to the issued envelopes are strictly increasing (`id = ++this.messageId`),
all positive, and pairwise distinct — so an id is never reused at all, in
particular never while a call with that id is pending. -/
theorem c9_ids_strictly_increasing (events : List ChEvent) :
    List.Chain' (· < ·) (issuedIds (runChannel events))
    ∧ (∀ i ∈ issuedIds (runChannel events), 0 < i)
    ∧ (issuedIds (runChannel events)).Nodup := by
  have h0 : c9Inv initChannel := by
    constructor
    · simp [issuedIds, initChannel]
    · simp [issuedIds, initChannel]
  have hfin : c9Inv (runChannel events) := c9Inv_run events initChannel h0
  obtain ⟨hchain, hbound⟩ := hfin
  refine ⟨hchain, fun i hi => (hbound i hi).1, ?_⟩
  have hpair : List.Pairwise (· < ·) (issuedIds (runChannel events)) :=
    List.chain'_iff_pairwise.mp hchain
  exact List.Pairwise.imp Nat.ne_of_lt hpair

/-! ## C7 -/

theorem mem_insertSortedNoDup (x y : Nat) :
    ∀ (l : List Nat), y ∈ insertSortedNoDup x l ↔ y = x ∨ y ∈ l := by
  intro l
  induction l with
  | nil => simp [insertSortedNoDup]
  | cons a t ih =>
    unfold insertSortedNoDup
    by_cases h1 : x < a
    · rw [if_pos h1]
      simp [List.mem_cons]
    · rw [if_neg h1]
      by_cases h2 : (x == a) = true
      · rw [if_pos h2]
        have hxa : x = a := by simpa using h2
        subst hxa
        simp only [List.mem_cons]
        tauto
      · rw [if_neg h2]
        simp only [List.mem_cons, ih]
        tauto

theorem head?_insertSortedNoDup (x : Nat) (l : List Nat) :
    (insertSortedNoDup x l).head? = some x
      ∨ (insertSortedNoDup x l).head? = l.head? := by
  cases l with
  | nil => left; rfl
  | cons a t =>
    unfold insertSortedNoDup
    by_cases h1 : x < a
    · rw [if_pos h1]; left; rfl
    · rw [if_neg h1]
      by_cases h2 : (x == a) = true
      · rw [if_pos h2]; right; rfl
      · rw [if_neg h2]; right; rfl

theorem chain'_insertSortedNoDup (x : Nat) :
    ∀ (l : List Nat), List.Chain' (· < ·) l →
      List.Chain' (· < ·) (insertSortedNoDup x l) := by
  intro l
  induction l with
  | nil =>
    intro _
    simp [insertSortedNoDup]
  | cons a t ih =>
    intro h
    unfold insertSortedNoDup
    by_cases h1 : x < a
    · rw [if_pos h1]
      exact List.chain'_cons.mpr ⟨h1, h⟩
    · rw [if_neg h1]
      by_cases h2 : (x == a) = true
      · rw [if_pos h2]; exact h
      · rw [if_neg h2]
        have hxa : x ≠ a := by simpa using h2
        have hax : a < x := by omega
        have hins := ih (List.Chain'.tail h)
        rw [List.chain'_cons']
        refine ⟨?_, hins⟩
        intro z hz
        rcases head?_insertSortedNoDup x t with hh | hh
        · rw [hh] at hz
          have hzx : x = z := by simpa using hz
          omega
        · rw [hh] at hz
          exact (List.chain'_cons'.mp h).1 z hz

/-- The folding step of `parseListeningPorts` preserves sortedness and the
port range. -/
theorem parseListeningPorts_fold_inv (toks : List (List Char)) :
    ∀ (acc : List Nat), List.Chain' (· < ·) acc →
      (∀ p ∈ acc, 1024 < p ∧ p ≤ 65535) →
      List.Chain' (· < ·) (toks.foldl
        (fun acc tok =>
          let port := natOfDigits tok
          if 1024 < port && port ≤ 65535 then insertSortedNoDup port acc
          else acc) acc)
      ∧ ∀ p ∈ toks.foldl
          (fun acc tok =>
            let port := natOfDigits tok
            if 1024 < port && port ≤ 65535 then insertSortedNoDup port acc
            else acc) acc, 1024 < p ∧ p ≤ 65535 := by
  induction toks with
  | nil => exact fun acc hc hr => ⟨hc, hr⟩
  | cons tok rest ih =>
    intro acc hc hr
    rw [List.foldl_cons]
    by_cases hcond : (1024 < natOfDigits tok && natOfDigits tok ≤ 65535) = true
    · have hrange : 1024 < natOfDigits tok ∧ natOfDigits tok ≤ 65535 := by
        simpa using hcond
      simp only [hcond, if_true]
      refine ih (insertSortedNoDup (natOfDigits tok) acc)
        (chain'_insertSortedNoDup _ acc hc) ?_
      intro p hp
      rcases (mem_insertSortedNoDup _ p acc).mp hp with rfl | hp'
      · exact hrange
      · exact hr p hp'
    · simp only [hcond, if_false]
      exact ih acc hc hr

theorem probedPorts_subset (ports : List Nat) (ping : Nat → Bool) :
    ∀ q ∈ probedPorts ports ping, q ∈ ports := by
  induction ports with
  | nil => intro q hq; cases hq
  | cons p rest ih =>
    intro q hq
    unfold probedPorts at hq
    split at hq
    · have hqp : q = p := by simpa using hq
      subst hqp
      exact List.mem_cons_self q rest
    · rcases List.mem_cons.mp hq with rfl | hq'
      · exact List.mem_cons_self q rest
      · exact List.mem_cons_of_mem _ (ih q hq')

theorem chain'_lt_of_mem {a : Nat} {l : List Nat}
    (h : List.Chain' (· < ·) (a :: l)) : ∀ q ∈ l, a < q := by
  have hp := List.chain'_iff_pairwise.mp h
  exact (List.pairwise_cons.mp hp).1

theorem verifyConnection_first (ping : Nat → Bool) (p : Nat) :
    ∀ (l : List Nat), List.Chain' (· < ·) l →
      verifyConnection l ping = some p →
      ping p = true ∧ p ∈ l ∧ ∀ q ∈ l, ping q = true → p ≤ q := by
  intro l
  induction l with
  | nil => intro _ h; cases h
  | cons a t ih =>
    intro hc h
    unfold verifyConnection at h
    by_cases hp : ping a = true
    · rw [if_pos hp] at h
      have hap : a = p := by simpa using h
      subst hap
      refine ⟨hp, List.mem_cons_self a t, ?_⟩
      intro q hq hfq
      rcases List.mem_cons.mp hq with rfl | hq'
      · exact Nat.le_refl q
      · exact Nat.le_of_lt (chain'_lt_of_mem hc q hq')
    · rw [if_neg hp] at h
      obtain ⟨h1, h2, h3⟩ := ih (List.Chain'.tail hc) h
      refine ⟨h1, List.mem_cons_of_mem a h2, ?_⟩
      intro q hq hfq
      rcases List.mem_cons.mp hq with rfl | hq'
      · exact absurd hfq hp
      · exact h3 q hq' hfq

/-- C7: for every port-scan output, the candidate ports all lie in
`(1024, 65535]`, form a strictly ascending (hence duplicate-free) list;
every probed port is a candidate (so nothing outside the range is ever
probed); and a returned port is the first — that is, the least — verifying
candidate. -/
theorem c7_ports_range_sorted_first (stdout : String) (ping : Nat → Bool) :
    (∀ p ∈ parseListeningPorts stdout, 1024 < p ∧ p ≤ 65535)
    ∧ List.Chain' (· < ·) (parseListeningPorts stdout)
    ∧ (∀ q ∈ probedPorts (parseListeningPorts stdout) ping,
        q ∈ parseListeningPorts stdout ∧ 1024 < q ∧ q ≤ 65535)
    ∧ (∀ p, verifyConnection (parseListeningPorts stdout) ping = some p →
        ping p = true ∧ p ∈ parseListeningPorts stdout ∧
          ∀ q ∈ parseListeningPorts stdout, ping q = true → p ≤ q) := by
  have hinv := parseListeningPorts_fold_inv (jsDigitTokens stdout) []
    List.chain'_nil (by intro p hp; cases hp)
  have hports : parseListeningPorts stdout
      = (jsDigitTokens stdout).foldl
          (fun acc tok =>
            let port := natOfDigits tok
            if 1024 < port && port ≤ 65535 then insertSortedNoDup port acc
            else acc) [] := rfl
  rw [← hports] at hinv
  refine ⟨hinv.2, hinv.1, ?_, ?_⟩
  · intro q hq
    have hmem := probedPorts_subset (parseListeningPorts stdout) ping q hq
    exact ⟨hmem, hinv.2 q hmem⟩
  · intro p hp
    exact verifyConnection_first ping p (parseListeningPorts stdout) hinv.1 hp

/-! ## C8 -/

/-- C8: a command line missing the port flag or the token flag yields no
candidate: `isAntigravityProcess` requires both as substrings, and the
parsing loop skips any line whose command fails it — so such a line
contributes nothing to `parseProcessInfoPosix` (the win32 branch applies the
same gate). -/
theorem c8_missing_flag_excluded (line : String)
    (h : jsIncludes (cmdOfLine line) "--extension_server_port" = false
       ∨ jsIncludes (cmdOfLine line) "--csrf_token" = false) :
    parseLinePosix line = none := by
  have hag : isAntigravityProcess (cmdOfLine line) = false := by
    unfold isAntigravityProcess
    rcases h with h | h <;> simp [h]
  unfold parseLinePosix
  by_cases hlen : (partsOfLine line).length < 3
  · rw [if_pos hlen]
  · rw [if_neg hlen]
    cases hpid : jsParseIntOpt ((partsOfLine line).headD []) with
    | none => rfl
    | some pid => simp [hag]

/-- C8 witness: a `ps` line carrying the marker argument and a token flag but
no port flag produces no candidate. -/
theorem c8_witness :
    markerScan (cmdOfLine c8Line).toList = true
    ∧ parseLinePosix c8Line = none :=
  ⟨by decide, c8_missing_flag_excluded c8Line (Or.inl (by decide))⟩

end FreeHand
